import Mathlib

/-!
Verification of the pdfannots annotation-extraction core against its
natural-language specification.  The Python source (pdfannots.py,
orgprinter.py) is shallowly embedded below: floating-point coordinates
become exact rationals, Python strings become `List Char`, Python sets of
annotations become `Finset ℕ` of indices into the page's annotation list,
and fallible code returns `Except`.
-/

namespace PdfAnnots

/-- An axis-aligned rectangle `(x0, y0, x1, y1)`, as used for both glyph
boxes (`LTChar` bounding boxes) and annotation boxes. -/
structure Box where
  x0 : ℚ
  y0 : ℚ
  x1 : ℚ
  y1 : ℚ
  deriving DecidableEq, Repr

/-- Intersection area of two axis-aligned rectangles, exactly as computed
inside `boxhit`:
`x_overlap = max(0, min(item.x1, x1) - max(item.x0, x0))` (and likewise in
y), multiplied together. -/
def interArea (item box : Box) : ℚ :=
  let xOverlap := max 0 (min item.x1 box.x1 - max item.x0 box.x0)
  let yOverlap := max 0 (min item.y1 box.y1 - max item.y0 box.y0)
  xOverlap * yOverlap

/-- `item_area = (item.x1 - item.x0) * (item.y1 - item.y0)` from `boxhit`. -/
def itemArea (item : Box) : ℚ :=
  (item.x1 - item.x0) * (item.y1 - item.y0)

/-- `boxhit(item, box)` from pdfannots.py: does most of the item's area
overlap the box?  Returns `False` when the item has zero area, otherwise
tests `overlap_area >= 0.5 * item_area`. -/
def boxhit (item box : Box) : Bool :=
  if itemArea item = 0 then false
  else decide ((1 / 2 : ℚ) * itemArea item ≤ interArea item box)

/-- `str.endswith(c)` for a one-character suffix: true iff the last
character of the buffer is `c`. -/
def endsWithChar (l : List Char) (c : Char) : Bool :=
  l.getLast? = some c

/-- `Annotation.capture(text)` from pdfannots.py, acting on the buffer.
On a newline: elide a trailing hyphen, else append a single space unless
the buffer already ends with one; any other text is appended verbatim. -/
def capture (buf : List Char) (text : List Char) : List Char :=
  if text = ['\n'] then
    if endsWithChar buf '-' then buf.dropLast
    else if ¬ endsWithChar buf ' ' then buf ++ [' ']
    else buf
  else buf ++ text

/-- The `SUBSTITUTIONS` table from pdfannots.py as a character-to-string
map: tex ligatures, curly quotes and the ellipsis map to plain ASCII,
every other character to itself. -/
def SUBSTITUTIONS (c : Char) : List Char :=
  if c = 'ﬀ' then ['f', 'f']
  else if c = 'ﬁ' then ['f', 'i']
  else if c = 'ﬂ' then ['f', 'l']
  else if c = 'ﬃ' then ['f', 'f', 'i']
  else if c = 'ﬄ' then ['f', 'f', 'l']
  else if c = '‘' then ['\'']
  else if c = '’' then ['\'']
  else if c = '“' then ['"']
  else if c = '”' then ['"']
  else if c = '…' then ['.', '.', '.']
  else [c]

/-- Python `str.isspace`-style whitespace for the ASCII range, the
characters stripped by `str.strip()`. -/
def pyIsSpace (c : Char) : Bool :=
  c = ' ' ∨ c = '\t' ∨ c = '\n' ∨ c = '\r' ∨ c = '\x0b' ∨ c = '\x0c'

/-- Python `str.strip()`: drop whitespace from both ends. -/
def pyStrip (l : List Char) : List Char :=
  ((l.dropWhile pyIsSpace).reverse.dropWhile pyIsSpace).reverse

/-- A page: 0-based index plus its media box.  (`Page.__eq__` and
`Page.__lt__` compare only `pageno`.) -/
structure Page where
  pageno : ℕ
  mediabox : Box
  deriving DecidableEq, Repr

/-- The `while coords != []` loop of `Annotation.__init__`: each group of
8 quad-point coordinates `(x0,y0,x1,y1,x2,y2,x3,y3)` becomes the box
`(min xvals, min yvals, max xvals, max yvals)`.  The loop runs only after
the constructor's `assert len(coords) % 8 == 0` (kept in `mkAnnotation`),
so every iteration takes exactly 8 coordinates. -/
def quadBoxes : List ℚ → List Box
  | x0 :: y0 :: x1 :: y1 :: x2 :: y2 :: x3 :: y3 :: rest =>
      { x0 := min (min x0 x1) (min x2 x3)
        y0 := min (min y0 y1) (min y2 y3)
        x1 := max (max x0 x1) (max x2 x3)
        y1 := max (max y0 y1) (max y2 y3) } :: quadBoxes rest
  | _ => []

/-- An `Annotation` object.  `boxes = none` mirrors Python's
`self.boxes = None` (no quad points); `contents = none` mirrors a missing
or empty `Contents` entry. -/
structure Annotation where
  page : Page
  tagname : String
  contents : Option (List Char)
  rect : Option Box
  author : Option (List Char)
  boxes : Option (List Box)
  text : List Char
  deriving DecidableEq, Repr

/-- `Annotation.__init__(page, tagname, coords, rect, contents, author)`:
empty contents become `None`; quad-point coords, when present, must have
length divisible by 8 (`assert len(coords) % 8 == 0` — an AssertionError
otherwise) and become the box list; the text buffer starts empty. -/
def mkAnnotation (page : Page) (tagname : String) (coords : Option (List ℚ))
    (rect : Option Box) (contents : Option (List Char))
    (author : Option (List Char)) : Except String Annotation :=
  match coords with
  | none =>
      .ok { page := page
            tagname := tagname
            contents := if contents = some [] then none else contents
            rect := rect
            author := author
            boxes := none
            text := [] }
  | some cs =>
      if cs.length % 8 = 0 then
        .ok { page := page
              tagname := tagname
              contents := if contents = some [] then none else contents
              rect := rect
              author := author
              boxes := some (quadBoxes cs)
              text := [] }
      else .error "AssertionError"

/-- Python truthiness of `self.boxes`: neither `None` nor the empty
list. -/
def hasBoxes (a : Annotation) : Bool :=
  match a.boxes with
  | none => false
  | some l => ¬ l.isEmpty

/-- The missing-text sentinel returned by `Annotation.gettext` when an
annotation has boxes but captured no text. -/
def missingTextSentinel : List Char := "(XXX: missing text!)".toList

/-- `Annotation.gettext()`: `None` without boxes; otherwise the stripped,
substitution-mapped buffer when non-empty, else the missing-text
sentinel. -/
def gettext (a : Annotation) : Option (List Char) :=
  if hasBoxes a then
    if a.text ≠ [] then
      some ((pyStrip a.text).flatMap SUBSTITUTIONS)
    else
      some missingTextSentinel
  else none

/-- An anchor position `(page, x, y)`. -/
structure Pos where
  page : Page
  x : ℚ
  y : ℚ
  deriving DecidableEq, Repr

/-- `Pos.normalise_to_mediabox()`: clamp `(x, y)` into the position's own
page's media box. -/
def normaliseToMediabox (p : Pos) : ℚ × ℚ :=
  let x := if p.x < p.page.mediabox.x0 then p.page.mediabox.x0
           else if p.x > p.page.mediabox.x1 then p.page.mediabox.x1
           else p.x
  let y := if p.y < p.page.mediabox.y0 then p.page.mediabox.y0
           else if p.y > p.page.mediabox.y1 then p.page.mediabox.y1
           else p.y
  (x, y)

/-- `Pos.__lt__(other)`, parameterised by `COLUMNS_PER_PAGE` (`cols`).
Smaller page first; on the same page, clamp both points, split the page
(using `self`'s media box, as the source does) into `cols` equal columns,
and order by ascending column index, then by descending clamped `y`.
Python's float floor-division `//` is `Int.floor` of the quotient. -/
def posLt (cols : ℕ) (a b : Pos) : Bool :=
  if a.page.pageno < b.page.pageno then true
  else if a.page.pageno = b.page.pageno then
    let sx := (normaliseToMediabox a).1
    let sy := (normaliseToMediabox a).2
    let ox := (normaliseToMediabox b).1
    let oy := (normaliseToMediabox b).2
    let colwidth := (a.page.mediabox.x1 - a.page.mediabox.x0) / (cols : ℚ)
    let selfCol := ⌊(sx - a.page.mediabox.x0) / colwidth⌋
    let otherCol := ⌊(ox - a.page.mediabox.x0) / colwidth⌋
    decide (selfCol < otherCol ∨ (selfCol = otherCol ∧ sy > oy))
  else false

/-- The clamped x coordinate of a position. -/
def clampedX (p : Pos) : ℚ := (normaliseToMediabox p).1

/-- The clamped y coordinate of a position. -/
def clampedY (p : Pos) : ℚ := (normaliseToMediabox p).2

/-- The column index of a position on its own page:
`floor((clampedX - x0) / ((x1 - x0) / cols))`. -/
def colIndex (cols : ℕ) (p : Pos) : ℤ :=
  ⌊(clampedX p - p.page.mediabox.x0) /
    ((p.page.mediabox.x1 - p.page.mediabox.x0) / (cols : ℚ))⌋

/-- An outline (bookmark) entry: title and resolved anchor position. -/
structure Outline where
  title : List Char
  pos : Pos
  deriving DecidableEq, Repr

/-- `OrgPrinter.nearest_outline(pos)` (orgprinter.py): walk the outline
list, remembering the last entry whose anchor compares `<` the query, and
stop at the first entry that does not. -/
def nearestOutlineAux (cols : ℕ) (query : Pos) (prev : Option Outline) :
    List Outline → Option Outline
  | [] => prev
  | o :: rest =>
      if posLt cols o.pos query then nearestOutlineAux cols query (some o) rest
      else prev

/-- `OrgPrinter.nearest_outline(pos)` with `prev` starting at `None`. -/
def nearestOutline (cols : ℕ) (outlines : List Outline) (query : Pos) :
    Option Outline :=
  nearestOutlineAux cols query none outlines

/-- The last entry in the list whose anchor compares strictly less than
the query — the return value the specification ascribes to
`nearestPrecedingOutline`, written from the spec's words for comparison
with `nearestOutline`. -/
def lastStrictlyPreceding (cols : ℕ) (outlines : List Outline) (query : Pos) :
    Option Outline :=
  (outlines.filter (fun o => posLt cols o.pos query)).getLast?

/-- A node of the per-page layout tree handed to `RectExtractor.render`:
a container (an `LTTextBox` when `isTextBox`, with its aggregate bounding
box), a positioned character (`LTChar`), or an untethered whitespace
marker (`LTAnno`, no box). -/
inductive LTItem where
  | container (isTextBox : Bool) (box : Box) (children : List LTItem)
  | char (box : Box) (text : List Char)
  | anno (text : List Char)
  deriving Repr

/-- The mutable state of `RectExtractor` during one page's traversal:
the page's annotations (as a list, sets of annotations becoming sets of
indices into it), `_lasthit` and `_curline`. -/
structure RState where
  annots : List Annotation
  lasthit : Finset ℕ
  curline : Finset ℕ

/-- Apply `a.capture(text)` to exactly the annotations whose index lies in
`s`, leaving every other annotation untouched.  (Python iterates over a
set; each annotation is captured at most once, so order is irrelevant.) -/
def captureSet (annots : List Annotation) (s : Finset ℕ) (text : List Char) :
    List Annotation :=
  annots.mapIdx fun i a =>
    if i ∈ s then { a with text := capture a.text text } else a

/-- Whether one annotation is hit by an item box: the annotation has
boxes (`setannots` keeps only those) and one of them satisfies `boxhit`
against the item's box. -/
def annotHit (itemBox : Box) (a : Annotation) : Bool :=
  hasBoxes a && (a.boxes.getD []).any (fun b => boxhit itemBox b)

/-- The hit set of `testboxes` as indices into the annotation list. -/
def hitSet (annots : List Annotation) (itemBox : Box) : Finset ℕ :=
  (Finset.range annots.length).filter fun i =>
    (annots.get? i).any (annotHit itemBox) = true

/-- `RectExtractor.testboxes(item)`: compute the hit set, overwrite
`_lasthit` with it and union it into `_curline`. -/
def testboxes (st : RState) (itemBox : Box) : Finset ℕ × RState :=
  let hits := hitSet st.annots itemBox
  (hits, { st with lasthit := hits, curline := st.curline ∪ hits })

/-- `RectExtractor.capture_newline()`: broadcast `'\n'` to every
annotation of `_curline`, then reset `_curline` to the empty set. -/
def captureNewline (st : RState) : RState :=
  { st with annots := captureSet st.annots st.curline ['\n'], curline := ∅ }

mutual
/-- `RectExtractor.render(item)`: recurse through containers (emitting a
box test plus a newline after each `LTTextBox`), capture each `LTChar`'s
text into the annotations its box hits, and route each `LTAnno` either as
a newline broadcast to `_curline` or as whitespace appended to
`_lasthit`. -/
def render (st : RState) : LTItem → RState
  | .container isTextBox box children =>
      let st1 := renderList st children
      if isTextBox then captureNewline (testboxes st1 box).2
      else st1
  | .char box text =>
      let (hits, st1) := testboxes st box
      { st1 with annots := captureSet st1.annots hits text }
  | .anno text =>
      if text = ['\n'] then captureNewline st
      else { st with annots := captureSet st.annots st.lasthit text }

/-- Fold `render` over a container's children, left to right. -/
def renderList (st : RState) : List LTItem → RState
  | [] => st
  | item :: rest => renderList (render st item) rest
end

/-- `RectExtractor.receive_layout(ltpage)`: reset `_lasthit` and
`_curline`, then render the page's tree. -/
def receiveLayout (annots : List Annotation) (ltpage : LTItem) : RState :=
  render { annots := annots, lasthit := ∅, curline := ∅ } ltpage

/-- Line boundaries recognised by Python's `str.splitlines()` (besides
the `"\r\n"` pair, which is handled as a unit). -/
def isLineBoundary (c : Char) : Bool :=
  c = '\n' ∨ c = '\r' ∨ c = '\x0b' ∨ c = '\x0c' ∨
  c = '\x1c' ∨ c = '\x1d' ∨ c = '\x1e' ∨ c = '\x85' ∨
  c = '\u2028' ∨ c = '\u2029'

/-- Python `str.splitlines()`: break at line boundaries (`"\r\n"`
counting as one), keeping no trailing empty line. -/
def splitlines : List Char → List (List Char)
  | [] => []
  | '\r' :: '\n' :: rest => [] :: splitlines rest
  | c :: rest =>
      if isLineBoundary c then [] :: splitlines rest
      else
        match splitlines rest with
        | [] => [[c]]
        | l :: ls => (c :: l) :: ls

/-- The `text` list of `OrgPrinter.format_annot`:
`[l for l in rawtext.strip().splitlines() if l] if rawtext else []`
(`rawtext` must be truthy, i.e. present and non-empty). -/
def formatTextLines (a : Annotation) : List (List Char) :=
  match gettext a with
  | some raw =>
      if raw ≠ [] then (splitlines (pyStrip raw)).filter (· ≠ []) else []
  | none => []

/-- The `comment` list of `OrgPrinter.format_annot`:
`[l for l in annot.contents.splitlines() if l] if annot.contents else []`. -/
def formatCommentLines (a : Annotation) : List (List Char) :=
  match a.contents with
  | some c => if c ≠ [] then (splitlines c).filter (· ≠ []) else []
  | none => []

/-- The `assert text or comment` check of `OrgPrinter.format_annot`:
`true` when formatting proceeds, `false` when the assertion fires. -/
def formatAnnotAssertOk (a : Annotation) : Bool :=
  ¬ (formatTextLines a).isEmpty ∨ ¬ (formatCommentLines a).isEmpty

/-- `ANNOT_SUBTYPES` from pdfannots.py. -/
def ANNOT_SUBTYPES : List String :=
  ["Text", "Highlight", "Squiggly", "StrikeOut", "Underline"]

/-- A raw per-page annotation record as handed to `getannots`:
the `Subtype` name (absent when the record carries none), `Contents`,
`QuadPoints`, `Rect` and author `T`. -/
structure PDFRecord where
  subtype : Option String
  contents : Option (List Char)
  quadpoints : Option (List ℚ)
  rect : Option Box
  author : Option (List Char)
  deriving DecidableEq, Repr

/-- The `Contents` normalisation in `getannots`: `"\r\n"` and `"\r"`
become `"\n"`. -/
def normaliseNewlines : List Char → List Char
  | [] => []
  | '\r' :: '\n' :: rest => '\n' :: normaliseNewlines rest
  | '\r' :: rest => '\n' :: normaliseNewlines rest
  | c :: rest => c :: normaliseNewlines rest

/-- Contents processing in `getannots`: normalise line endings, then map
every character through `SUBSTITUTIONS`. -/
def normContents (c : List Char) : List Char :=
  (normaliseNewlines c).flatMap SUBSTITUTIONS

/-- `getannots(pdfannots, page)`: skip records whose present `Subtype`
name is outside `ANNOT_SUBTYPES`; a record with an absent `Subtype` is
not skipped and evaluating `subtype.name` raises `AttributeError`;
retained records become `Annotation` objects in input order. -/
def getannots (page : Page) : List PDFRecord → Except String (List Annotation)
  | [] => .ok []
  | pa :: rest =>
      match pa.subtype with
      | some name =>
          if name ∉ ANNOT_SUBTYPES then getannots page rest
          else do
            let a ← mkAnnotation page name pa.quadpoints pa.rect
              (pa.contents.map normContents) pa.author
            let rest' ← getannots page rest
            .ok (a :: rest')
      | none => .error "AttributeError"

/-- Whether `getannots` retains a record: a present `Subtype` name inside
`ANNOT_SUBTYPES`. -/
def recordKept (r : PDFRecord) : Bool :=
  match r.subtype with
  | some name => name ∈ ANNOT_SUBTYPES
  | none => false

/-- The `Annotation` object `getannots` builds from a retained record
whose quad points, if any, pass the constructor's length assert. -/
def recordAnnot (page : Page) (r : PDFRecord) : Annotation :=
  { page := page
    tagname := r.subtype.getD ""
    contents := if r.contents.map normContents = some [] then none
                else r.contents.map normContents
    rect := r.rect
    author := r.author
    boxes := r.quadpoints.map quadBoxes
    text := [] }

/-- The newline broadcast rule as the specification words it: if the
buffer ends with a hyphen, drop the hyphen and append nothing; else if it
does not already end with a space, append one space; otherwise leave the
buffer unchanged.  Stated for comparison with `capture`. -/
def newlineBroadcastRule (buf : List Char) : List Char :=
  if endsWithChar buf '-' then buf.dropLast
  else if ¬ endsWithChar buf ' ' then buf ++ [' ']
  else buf

/-! ## Theorems -/

/-- Appending one character determines the last character of a buffer. -/
theorem endsWithChar_append_singleton (l : List Char) (a c : Char) :
    endsWithChar (l ++ [a]) c = decide (a = c) := by
  simp [endsWithChar, List.getLast?_concat]

/-- One newline capture grows the buffer by at most one character. -/
theorem capture_newline_length_le (buf : List Char) :
    (capture buf ['\n']).length ≤ buf.length + 1 := by
  by_cases h1 : endsWithChar buf '-' = true
  · have := List.length_dropLast buf
    simp [capture, h1]
    omega
  · by_cases h2 : endsWithChar buf ' ' = true <;>
      simp [capture, h1, h2]

/-- C1: for axis-aligned item and annotation boxes, `boxhit` returns true
iff the item's area is nonzero and the intersection area is at least half
the item's area; in particular a zero-area item never matches. -/
theorem boxhit_iff_majority_overlap (item box : Box)
    (_hix : item.x0 ≤ item.x1) (_hiy : item.y0 ≤ item.y1)
    (_hbx : box.x0 ≤ box.x1) (_hby : box.y0 ≤ box.y1) :
    (boxhit item box = true ↔
      itemArea item ≠ 0 ∧ (1 / 2 : ℚ) * itemArea item ≤ interArea item box) ∧
    (itemArea item = 0 → boxhit item box = false) := by
  constructor
  · by_cases h : itemArea item = 0 <;> simp [boxhit, h]
  · intro h
    simp [boxhit, h]

/-- Witness for C1 at item `(0,0,2,1)` and box `(0,0,1,1)`. -/
theorem boxhit_iff_majority_overlap_witness :
    (boxhit ⟨0, 0, 2, 1⟩ ⟨0, 0, 1, 1⟩ = true ↔
      itemArea ⟨0, 0, 2, 1⟩ ≠ 0 ∧
        (1 / 2 : ℚ) * itemArea ⟨0, 0, 2, 1⟩ ≤ interArea ⟨0, 0, 2, 1⟩ ⟨0, 0, 1, 1⟩) ∧
    (itemArea ⟨0, 0, 2, 1⟩ = 0 → boxhit ⟨0, 0, 2, 1⟩ ⟨0, 0, 1, 1⟩ = false) :=
  boxhit_iff_majority_overlap ⟨0, 0, 2, 1⟩ ⟨0, 0, 1, 1⟩
    (by norm_num) (by norm_num) (by norm_num) (by norm_num)

/-- C2 counterexample: the zero-area item box `(0,0,0,0)` is fully
contained in the annotation box `(0,0,1,1)`, yet `boxhit` returns
false. -/
theorem boxhit_contained_zero_area_counterexample :
    ((0 : ℚ) ≤ Box.x0 ⟨0, 0, 0, 0⟩ ∧ Box.x1 ⟨0, 0, 0, 0⟩ ≤ (1 : ℚ) ∧
     (0 : ℚ) ≤ Box.y0 ⟨0, 0, 0, 0⟩ ∧ Box.y1 ⟨0, 0, 0, 0⟩ ≤ (1 : ℚ)) ∧
    boxhit ⟨0, 0, 0, 0⟩ ⟨0, 0, 1, 1⟩ = false := by
  refine ⟨by norm_num, ?_⟩
  simp [boxhit, itemArea]

/-- C2 amended: a primitive box of nonzero area fully contained in an
annotation box always satisfies `boxhit`. -/
theorem boxhit_of_contained (item box : Box)
    (hix : item.x0 ≤ item.x1) (hiy : item.y0 ≤ item.y1)
    (h1 : box.x0 ≤ item.x0) (h2 : item.x1 ≤ box.x1)
    (h3 : box.y0 ≤ item.y0) (h4 : item.y1 ≤ box.y1)
    (harea : itemArea item ≠ 0) :
    boxhit item box = true := by
  have hxov : min item.x1 box.x1 - max item.x0 box.x0 = item.x1 - item.x0 := by
    rw [min_eq_left h2, max_eq_left h1]
  have hyov : min item.y1 box.y1 - max item.y0 box.y0 = item.y1 - item.y0 := by
    rw [min_eq_left h4, max_eq_left h3]
  have hinter : interArea item box = itemArea item := by
    unfold interArea itemArea
    rw [hxov, hyov, max_eq_right (sub_nonneg.mpr hix),
      max_eq_right (sub_nonneg.mpr hiy)]
  have hnonneg : 0 ≤ itemArea item :=
    mul_nonneg (sub_nonneg.mpr hix) (sub_nonneg.mpr hiy)
  simp only [boxhit, if_neg harea, hinter, decide_eq_true_eq]
  linarith

/-- Witness for the amended C2 at item `(0,0,1,1)` inside box
`(-1,-1,2,2)`. -/
theorem boxhit_of_contained_witness :
    boxhit ⟨0, 0, 1, 1⟩ ⟨-1, -1, 2, 2⟩ = true :=
  boxhit_of_contained ⟨0, 0, 1, 1⟩ ⟨-1, -1, 2, 2⟩
    (by norm_num) (by norm_num) (by norm_num) (by norm_num)
    (by norm_num) (by norm_num) (by norm_num [itemArea])

/-- C3: capturing a newline applies exactly the broadcast rule (hyphen
elision, else a single space unless one is already there); consequently
"auto-" + newline + "matic" gives "automatic", "hello" + newline +
"world" gives "hello world", and two consecutive newline captures extend
the buffer by at most one character — never two spaces. -/
theorem capture_newline_spec :
    (∀ buf : List Char, capture buf ['\n'] = newlineBroadcastRule buf) ∧
    capture (capture (capture [] "auto-".toList) ['\n']) "matic".toList =
      "automatic".toList ∧
    capture (capture (capture [] "hello".toList) ['\n']) "world".toList =
      "hello world".toList ∧
    (∀ buf : List Char,
      (capture (capture buf ['\n']) ['\n']).length ≤ buf.length + 1) := by
  refine ⟨fun buf => rfl, by decide, by decide, fun buf => ?_⟩
  by_cases h1 : endsWithChar buf '-' = true
  · have hstep : capture buf ['\n'] = buf.dropLast := by simp [capture, h1]
    have h2 := capture_newline_length_le buf.dropLast
    have h3 := List.length_dropLast buf
    rw [hstep]
    omega
  · by_cases h2 : endsWithChar buf ' ' = true
    · simp [capture, h1, h2]
    · have hstep : capture buf ['\n'] = buf ++ [' '] := by simp [capture, h1, h2]
      have hd : endsWithChar (buf ++ [' ']) '-' = false := by
        rw [endsWithChar_append_singleton]
        decide
      have hs : endsWithChar (buf ++ [' ']) ' ' = true := by
        rw [endsWithChar_append_singleton]
        decide
      rw [hstep]
      simp [capture, hd, hs]

/-- C4: rendering an untethered whitespace marker with newline text
broadcasts a newline to exactly the `_curline` annotations and resets
`_curline`; any other marker text is appended to exactly the `_lasthit`
annotations; in both cases every other annotation is untouched. -/
theorem render_untethered_spec (st : RState) (t : List Char) :
    (t = ['\n'] →
      (render st (.anno t)).curline = ∅ ∧
      (render st (.anno t)).lasthit = st.lasthit ∧
      ∀ i : ℕ, (render st (.anno t)).annots[i]? =
        (st.annots[i]?).map fun a =>
          if i ∈ st.curline then { a with text := capture a.text ['\n'] }
          else a) ∧
    (t ≠ ['\n'] →
      (render st (.anno t)).curline = st.curline ∧
      (render st (.anno t)).lasthit = st.lasthit ∧
      ∀ i : ℕ, (render st (.anno t)).annots[i]? =
        (st.annots[i]?).map fun a =>
          if i ∈ st.lasthit then { a with text := capture a.text t }
          else a) := by
  constructor
  · intro ht
    subst ht
    refine ⟨rfl, rfl, fun i => ?_⟩
    simp [render, captureNewline, captureSet, List.getElem?_mapIdx]
  · intro ht
    refine ⟨?_, ?_, fun i => ?_⟩
    · simp [render, ht]
    · simp [render, ht]
    · simp [render, ht, captureSet, List.getElem?_mapIdx]

/-- Witness for C4: a one-annotation state where `_curline` holds index 0
and `_lasthit` is empty, probed with a newline marker and a space
marker. -/
theorem render_untethered_spec_witness :
    (['\n'] = ['\n'] →
      (render ⟨[⟨⟨0, ⟨0, 0, 1, 1⟩⟩, "Highlight", none, none, none,
          some [⟨0, 0, 1, 1⟩], ['a']⟩], ∅, {0}⟩ (.anno ['\n'])).curline = ∅ ∧
      (render ⟨[⟨⟨0, ⟨0, 0, 1, 1⟩⟩, "Highlight", none, none, none,
          some [⟨0, 0, 1, 1⟩], ['a']⟩], ∅, {0}⟩ (.anno ['\n'])).lasthit = ∅ ∧
      ∀ i : ℕ, (render ⟨[⟨⟨0, ⟨0, 0, 1, 1⟩⟩, "Highlight", none, none, none,
          some [⟨0, 0, 1, 1⟩], ['a']⟩], ∅, {0}⟩ (.anno ['\n'])).annots[i]? =
        (([⟨⟨0, ⟨0, 0, 1, 1⟩⟩, "Highlight", none, none, none,
          some [⟨0, 0, 1, 1⟩], ['a']⟩] : List Annotation)[i]?).map fun a =>
          if i ∈ ({0} : Finset ℕ) then { a with text := capture a.text ['\n'] }
          else a) ∧
    ((['\n'] : List Char) ≠ [' '] →
      (render ⟨[⟨⟨0, ⟨0, 0, 1, 1⟩⟩, "Highlight", none, none, none,
          some [⟨0, 0, 1, 1⟩], ['a']⟩], ∅, {0}⟩ (.anno [' '])).curline = {0} ∧
      (render ⟨[⟨⟨0, ⟨0, 0, 1, 1⟩⟩, "Highlight", none, none, none,
          some [⟨0, 0, 1, 1⟩], ['a']⟩], ∅, {0}⟩ (.anno [' '])).lasthit = ∅ ∧
      ∀ i : ℕ, (render ⟨[⟨⟨0, ⟨0, 0, 1, 1⟩⟩, "Highlight", none, none, none,
          some [⟨0, 0, 1, 1⟩], ['a']⟩], ∅, {0}⟩ (.anno [' '])).annots[i]? =
        (([⟨⟨0, ⟨0, 0, 1, 1⟩⟩, "Highlight", none, none, none,
          some [⟨0, 0, 1, 1⟩], ['a']⟩] : List Annotation)[i]?).map fun a =>
          if i ∈ (∅ : Finset ℕ) then { a with text := capture a.text [' '] }
          else a) := by
  constructor
  · intro _
    exact (render_untethered_spec
      ⟨[⟨⟨0, ⟨0, 0, 1, 1⟩⟩, "Highlight", none, none, none,
        some [⟨0, 0, 1, 1⟩], ['a']⟩], ∅, {0}⟩ ['\n']).1 rfl
  · intro _
    exact (render_untethered_spec
      ⟨[⟨⟨0, ⟨0, 0, 1, 1⟩⟩, "Highlight", none, none, none,
        some [⟨0, 0, 1, 1⟩], ['a']⟩], ∅, {0}⟩ [' ']).2 (by decide)

/-- Characterisation of `posLt` by page number, column index and clamped
y coordinate, for positions whose pages agree whenever their page numbers
do (the source asserts `self.page is other.page` in that branch). -/
theorem posLt_iff (cols : ℕ) (a b : Pos)
    (hpage : a.page.pageno = b.page.pageno → a.page = b.page) :
    posLt cols a b = true ↔
      a.page.pageno < b.page.pageno ∨
      (a.page.pageno = b.page.pageno ∧
        (colIndex cols a < colIndex cols b ∨
          (colIndex cols a = colIndex cols b ∧ clampedY a > clampedY b))) := by
  by_cases h1 : a.page.pageno < b.page.pageno
  · simp [posLt, h1]
  · by_cases h2 : a.page.pageno = b.page.pageno
    · have hp := hpage h2
      have hmb : b.page.mediabox = a.page.mediabox := by rw [hp]
      simp only [posLt, h1, h2, if_false, if_true, decide_eq_true_eq]
      unfold colIndex clampedX clampedY
      rw [hmb]
      simp [h1, h2]
    · simp [posLt, h1, h2]

/-- C5: the anchor comparator orders by ascending page index, then by
ascending column index (computed from the clamped x by floor division over
`(x1-x0)/cols`), then by strictly greater clamped y; on a page of width
`W` with 2 columns an anchor at `x = 0` precedes one at `x = W/2 + 1` for
all y values, and within one column the greater clamped y precedes. -/
theorem posLt_ordering_spec :
    (∀ (cols : ℕ) (a b : Pos),
      (a.page.pageno = b.page.pageno → a.page = b.page) →
      (posLt cols a b = true ↔
        a.page.pageno < b.page.pageno ∨
        (a.page.pageno = b.page.pageno ∧
          (colIndex cols a < colIndex cols b ∨
            (colIndex cols a = colIndex cols b ∧
              clampedY a > clampedY b))))) ∧
    (∀ (pg : Page) (W ya yb : ℚ),
      pg.mediabox.x0 = 0 → pg.mediabox.x1 = W → 0 < W →
      posLt 2 ⟨pg, 0, ya⟩ ⟨pg, W / 2 + 1, yb⟩ = true) ∧
    (∀ a b : Pos, a.page = b.page → colIndex 2 a = colIndex 2 b →
      clampedY a > clampedY b → posLt 2 a b = true) := by
  refine ⟨posLt_iff, ?_, ?_⟩
  · intro pg W ya yb hx0 hx1 hW
    rw [posLt_iff 2 ⟨pg, 0, ya⟩ ⟨pg, W / 2 + 1, yb⟩ (fun _ => rfl)]
    right
    refine ⟨rfl, Or.inl ?_⟩
    have hA : colIndex 2 ⟨pg, 0, ya⟩ = 0 := by
      unfold colIndex clampedX normaliseToMediabox
      simp only [hx0, hx1]
      rw [if_neg (lt_irrefl 0), if_neg (not_lt.mpr hW.le)]
      simp
    have hB : 1 ≤ colIndex 2 ⟨pg, W / 2 + 1, yb⟩ := by
      unfold colIndex clampedX normaliseToMediabox
      simp only [hx0, hx1, sub_zero]
      have hnl : ¬ (W / 2 + 1 < (0 : ℚ)) := by linarith
      rw [if_neg hnl]
      by_cases hgt : W / 2 + 1 > W
      · rw [if_pos hgt]
        push_cast
        have h2 : W / (W / 2) = 2 := by
          field_simp
        rw [h2]
        norm_num
      · rw [if_neg hgt]
        rw [Int.le_floor]
        push_cast
        rw [le_div_iff₀ (by positivity : (0 : ℚ) < W / 2)]
        linarith
    omega
  · intro a b hp hcol hy
    rw [posLt_iff 2 a b (fun _ => hp)]
    right
    exact ⟨by rw [hp], Or.inr ⟨hcol, hy⟩⟩

/-- Witness for C5: media box `(0,0,4,4)`, 2 columns; the anchor at
`x = 0` precedes the anchor at `x = 3`; anchors at equal x with clamped
y 3 and 1 order by descending y. -/
theorem posLt_ordering_spec_witness :
    (posLt 2 ⟨⟨0, ⟨0, 0, 4, 4⟩⟩, 0, 1⟩ ⟨⟨0, ⟨0, 0, 4, 4⟩⟩, 1, 1⟩ = true ↔
      (0 : ℕ) < 0 ∨
      ((0 : ℕ) = 0 ∧
        (colIndex 2 ⟨⟨0, ⟨0, 0, 4, 4⟩⟩, 0, 1⟩ <
            colIndex 2 ⟨⟨0, ⟨0, 0, 4, 4⟩⟩, 1, 1⟩ ∨
          (colIndex 2 ⟨⟨0, ⟨0, 0, 4, 4⟩⟩, 0, 1⟩ =
              colIndex 2 ⟨⟨0, ⟨0, 0, 4, 4⟩⟩, 1, 1⟩ ∧
            clampedY ⟨⟨0, ⟨0, 0, 4, 4⟩⟩, 0, 1⟩ >
              clampedY ⟨⟨0, ⟨0, 0, 4, 4⟩⟩, 1, 1⟩)))) ∧
    posLt 2 ⟨⟨0, ⟨0, 0, 4, 4⟩⟩, 0, 2⟩ ⟨⟨0, ⟨0, 0, 4, 4⟩⟩, 4 / 2 + 1, 2⟩ = true ∧
    posLt 2 ⟨⟨0, ⟨0, 0, 4, 4⟩⟩, 1, 3⟩ ⟨⟨0, ⟨0, 0, 4, 4⟩⟩, 1, 1⟩ = true := by
  refine ⟨posLt_ordering_spec.1 2 _ _ (fun _ => rfl), ?_, ?_⟩
  · exact posLt_ordering_spec.2.1 ⟨0, ⟨0, 0, 4, 4⟩⟩ 4 2 2 rfl rfl (by norm_num)
  · exact posLt_ordering_spec.2.2 ⟨⟨0, ⟨0, 0, 4, 4⟩⟩, 1, 3⟩ ⟨⟨0, ⟨0, 0, 4, 4⟩⟩, 1, 1⟩
      rfl (by norm_num [colIndex, clampedX, normaliseToMediabox])
      (by norm_num [clampedY, normaliseToMediabox])

/-- Asymmetry of the comparator, for positions whose pages agree whenever
their page numbers do. -/
theorem posLt_asymm (cols : ℕ) (a b : Pos)
    (hab : a.page.pageno = b.page.pageno → a.page = b.page) :
    posLt cols a b = true → posLt cols b a = false := by
  intro h1
  rw [Bool.eq_false_iff]
  intro h2
  rw [posLt_iff cols a b hab] at h1
  rw [posLt_iff cols b a (fun h => (hab h.symm).symm)] at h2
  rcases h1 with h1 | ⟨h1e, h1r⟩ <;> rcases h2 with h2 | ⟨h2e, h2r⟩ <;>
    try omega
  rcases h1r with hc | ⟨hce, hy⟩ <;> rcases h2r with hc' | ⟨hce', hy'⟩ <;>
    first
    | omega
    | linarith

/-- C6 counterexample: two distinct anchors on the same page (media box
`(0,0,10,10)`, 2 columns) at `x = 1` and `x = 2` with equal `y` fall in
the same column, and neither compares less than the other — a tie
without exact coordinate equality. -/
theorem posLt_tie_counterexample :
    (⟨⟨0, ⟨0, 0, 10, 10⟩⟩, 1, 5⟩ : Pos) ≠ ⟨⟨0, ⟨0, 0, 10, 10⟩⟩, 2, 5⟩ ∧
    posLt 2 ⟨⟨0, ⟨0, 0, 10, 10⟩⟩, 1, 5⟩ ⟨⟨0, ⟨0, 0, 10, 10⟩⟩, 2, 5⟩ = false ∧
    posLt 2 ⟨⟨0, ⟨0, 0, 10, 10⟩⟩, 2, 5⟩ ⟨⟨0, ⟨0, 0, 10, 10⟩⟩, 1, 5⟩ = false := by
  refine ⟨by decide, ?_, ?_⟩ <;> norm_num [posLt, normaliseToMediabox]

/-- C6 amended: for positions whose pages agree whenever their page
numbers do, the comparator is irreflexive, asymmetric and transitive — a
strict weak order — and two positions tie exactly when their page
numbers, column indices and clamped y coordinates all agree; exact
equality of positions is one such tie, but not the only one. -/
theorem posLt_strict_weak_order (cols : ℕ) (a b c : Pos)
    (hab : a.page.pageno = b.page.pageno → a.page = b.page)
    (hbc : b.page.pageno = c.page.pageno → b.page = c.page)
    (hac : a.page.pageno = c.page.pageno → a.page = c.page) :
    posLt cols a a = false ∧
    (posLt cols a b = true → posLt cols b a = false) ∧
    (posLt cols a b = true → posLt cols b c = true → posLt cols a c = true) ∧
    ((posLt cols a b = false ∧ posLt cols b a = false) ↔
      (a.page.pageno = b.page.pageno ∧ colIndex cols a = colIndex cols b ∧
        clampedY a = clampedY b)) ∧
    (a = b → posLt cols a b = false) := by
  have iab := posLt_iff cols a b hab
  have iba := posLt_iff cols b a (fun h => (hab h.symm).symm)
  have ibc := posLt_iff cols b c hbc
  have iac := posLt_iff cols a c hac
  have iaa := posLt_iff cols a a (fun _ => rfl)
  have hirr : posLt cols a a = false := by
    rw [Bool.eq_false_iff]
    intro h
    rw [iaa] at h
    simp [lt_irrefl] at h
  refine ⟨hirr, ?_, ?_, ?_, ?_⟩
  · intro h1
    rw [Bool.eq_false_iff]
    intro h2
    rw [iab] at h1
    rw [iba] at h2
    rcases h1 with h1 | ⟨h1e, h1r⟩ <;> rcases h2 with h2 | ⟨h2e, h2r⟩ <;>
      try omega
    rcases h1r with hc | ⟨hce, hy⟩ <;> rcases h2r with hc' | ⟨hce', hy'⟩ <;>
      first
      | omega
      | linarith
  · intro h1 h2
    rw [iab] at h1
    rw [ibc] at h2
    rw [iac]
    rcases h1 with h1 | ⟨h1e, h1r⟩ <;> rcases h2 with h2 | ⟨h2e, h2r⟩
    · exact Or.inl (h1.trans h2)
    · exact Or.inl (by omega)
    · exact Or.inl (by omega)
    · right
      refine ⟨by omega, ?_⟩
      rcases h1r with hc | ⟨hce, hy⟩ <;> rcases h2r with hc' | ⟨hce', hy'⟩
      · exact Or.inl (hc.trans hc')
      · exact Or.inl (by omega)
      · exact Or.inl (by omega)
      · exact Or.inr ⟨hce.trans hce', by linarith⟩
  · constructor
    · rintro ⟨hnab, hnba⟩
      rw [Bool.eq_false_iff] at hnab hnba
      have h1 : ¬ _ := fun h => hnab (iab.mpr h)
      have h2 : ¬ _ := fun h => hnba (iba.mpr h)
      push_neg at h1 h2
      obtain ⟨h1p, h1r⟩ := h1
      obtain ⟨h2p, h2r⟩ := h2
      have hpe : a.page.pageno = b.page.pageno := by omega
      obtain ⟨h1c, h1y⟩ := h1r hpe
      obtain ⟨h2c, h2y⟩ := h2r hpe.symm
      have hce : colIndex cols a = colIndex cols b := by omega
      exact ⟨hpe, hce, le_antisymm (h1y hce) (h2y hce.symm)⟩
    · rintro ⟨hpe, hce, hye⟩
      constructor
      · rw [Bool.eq_false_iff]
        intro h
        rw [iab] at h
        rcases h with h | ⟨-, hc | ⟨-, hy⟩⟩
        · omega
        · omega
        · simp [hye] at hy
      · rw [Bool.eq_false_iff]
        intro h
        rw [iba] at h
        rcases h with h | ⟨-, hc | ⟨-, hy⟩⟩
        · omega
        · omega
        · simp [hye] at hy
  · rintro rfl
    exact hirr

/-- Witness for the amended C6 at three concrete anchors on one page. -/
theorem posLt_strict_weak_order_witness :
    posLt 2 ⟨⟨0, ⟨0, 0, 10, 10⟩⟩, 1, 5⟩ ⟨⟨0, ⟨0, 0, 10, 10⟩⟩, 1, 5⟩ = false ∧
    (posLt 2 ⟨⟨0, ⟨0, 0, 10, 10⟩⟩, 1, 5⟩ ⟨⟨0, ⟨0, 0, 10, 10⟩⟩, 6, 5⟩ = true →
      posLt 2 ⟨⟨0, ⟨0, 0, 10, 10⟩⟩, 6, 5⟩ ⟨⟨0, ⟨0, 0, 10, 10⟩⟩, 1, 5⟩ = false) ∧
    (posLt 2 ⟨⟨0, ⟨0, 0, 10, 10⟩⟩, 1, 5⟩ ⟨⟨0, ⟨0, 0, 10, 10⟩⟩, 6, 5⟩ = true →
      posLt 2 ⟨⟨0, ⟨0, 0, 10, 10⟩⟩, 6, 5⟩ ⟨⟨0, ⟨0, 0, 10, 10⟩⟩, 6, 1⟩ = true →
      posLt 2 ⟨⟨0, ⟨0, 0, 10, 10⟩⟩, 1, 5⟩ ⟨⟨0, ⟨0, 0, 10, 10⟩⟩, 6, 1⟩ = true) ∧
    ((posLt 2 ⟨⟨0, ⟨0, 0, 10, 10⟩⟩, 1, 5⟩ ⟨⟨0, ⟨0, 0, 10, 10⟩⟩, 6, 5⟩ = false ∧
      posLt 2 ⟨⟨0, ⟨0, 0, 10, 10⟩⟩, 6, 5⟩ ⟨⟨0, ⟨0, 0, 10, 10⟩⟩, 1, 5⟩ = false) ↔
      ((⟨0, ⟨0, 0, 10, 10⟩⟩ : Page).pageno = (⟨0, ⟨0, 0, 10, 10⟩⟩ : Page).pageno ∧
        colIndex 2 ⟨⟨0, ⟨0, 0, 10, 10⟩⟩, 1, 5⟩ =
          colIndex 2 ⟨⟨0, ⟨0, 0, 10, 10⟩⟩, 6, 5⟩ ∧
        clampedY ⟨⟨0, ⟨0, 0, 10, 10⟩⟩, 1, 5⟩ =
          clampedY ⟨⟨0, ⟨0, 0, 10, 10⟩⟩, 6, 5⟩)) ∧
    ((⟨⟨0, ⟨0, 0, 10, 10⟩⟩, 1, 5⟩ : Pos) = ⟨⟨0, ⟨0, 0, 10, 10⟩⟩, 6, 5⟩ →
      posLt 2 ⟨⟨0, ⟨0, 0, 10, 10⟩⟩, 1, 5⟩ ⟨⟨0, ⟨0, 0, 10, 10⟩⟩, 6, 5⟩ = false) :=
  posLt_strict_weak_order 2
    ⟨⟨0, ⟨0, 0, 10, 10⟩⟩, 1, 5⟩ ⟨⟨0, ⟨0, 0, 10, 10⟩⟩, 6, 5⟩
    ⟨⟨0, ⟨0, 0, 10, 10⟩⟩, 6, 1⟩ (fun _ => rfl) (fun _ => rfl) (fun _ => rfl)

/-- The accumulator characterisation of `nearest_outline`'s loop: it
returns the last element of the longest all-preceding prefix, falling
back to the accumulator when that prefix is empty. -/
theorem nearestOutlineAux_eq (cols : ℕ) (q : Pos) (l : List Outline) :
    ∀ prev, nearestOutlineAux cols q prev l =
      ((l.takeWhile fun o => posLt cols o.pos q).getLast?).or prev := by
  induction l with
  | nil => intro prev; simp [nearestOutlineAux]
  | cons o rest ih =>
      intro prev
      by_cases h : posLt cols o.pos q = true
      · rw [nearestOutlineAux, if_pos h, ih, List.takeWhile_cons, if_pos h]
        cases h' : (rest.takeWhile fun o => posLt cols o.pos q).getLast? with
        | none => simp [List.getLast?_cons, h', Option.or]
        | some x => simp [List.getLast?_cons, h', Option.or, List.getLastD]
      · rw [nearestOutlineAux, if_neg h, List.takeWhile_cons, if_neg h]
        simp

/-- C7 counterexample: with the outline list out of monotonic order —
entries at `y = 2` then `y = 8` on a `(0,0,10,10)` page, query at
`y = 5` — the scan stops at the first non-preceding entry and returns
none, although the last entry of the list strictly precedes the query. -/
theorem nearest_outline_counterexample :
    nearestOutline 2
      [⟨"s2".toList, ⟨⟨0, ⟨0, 0, 10, 10⟩⟩, 1, 2⟩⟩,
       ⟨"s1".toList, ⟨⟨0, ⟨0, 0, 10, 10⟩⟩, 1, 8⟩⟩]
      ⟨⟨0, ⟨0, 0, 10, 10⟩⟩, 1, 5⟩ = none ∧
    lastStrictlyPreceding 2
      [⟨"s2".toList, ⟨⟨0, ⟨0, 0, 10, 10⟩⟩, 1, 2⟩⟩,
       ⟨"s1".toList, ⟨⟨0, ⟨0, 0, 10, 10⟩⟩, 1, 8⟩⟩]
      ⟨⟨0, ⟨0, 0, 10, 10⟩⟩, 1, 5⟩ =
      some ⟨"s1".toList, ⟨⟨0, ⟨0, 0, 10, 10⟩⟩, 1, 8⟩⟩ := by
  have h2 : posLt 2 ⟨⟨0, ⟨0, 0, 10, 10⟩⟩, 1, 2⟩ ⟨⟨0, ⟨0, 0, 10, 10⟩⟩, 1, 5⟩
      = false := by
    norm_num [posLt, normaliseToMediabox]
  have h1 : posLt 2 ⟨⟨0, ⟨0, 0, 10, 10⟩⟩, 1, 8⟩ ⟨⟨0, ⟨0, 0, 10, 10⟩⟩, 1, 5⟩
      = true := by
    norm_num [posLt, normaliseToMediabox]
  constructor
  · simp [nearestOutline, nearestOutlineAux, h2]
  · simp [lastStrictlyPreceding, List.filter, h1, h2]

/-- C7 amended: the scan returns the last entry of the longest prefix of
entries strictly preceding the query (none when that prefix is empty);
with a three-entry monotone outline `P1 < P2 < P3`, a query strictly
after `P1` and strictly before `P2` yields the `P1` entry, a query
strictly before `P1` yields none, and the empty outline always yields
none. -/
theorem nearestOutline_spec :
    (∀ (cols : ℕ) (outlines : List Outline) (q : Pos),
      nearestOutline cols outlines q =
        (outlines.takeWhile fun o => posLt cols o.pos q).getLast?) ∧
    (∀ (cols : ℕ) (o1 o2 o3 : Outline) (q : Pos),
      (q.page.pageno = o2.pos.page.pageno → q.page = o2.pos.page) →
      posLt cols o1.pos q = true →
      posLt cols q o2.pos = true →
      nearestOutline cols [o1, o2, o3] q = some o1) ∧
    (∀ (cols : ℕ) (o1 o2 o3 : Outline) (q : Pos),
      (q.page.pageno = o1.pos.page.pageno → q.page = o1.pos.page) →
      posLt cols q o1.pos = true →
      nearestOutline cols [o1, o2, o3] q = none) ∧
    (∀ (cols : ℕ) (q : Pos), nearestOutline cols [] q = none) := by
  refine ⟨?_, ?_, ?_, ?_⟩
  · intro cols outlines q
    rw [nearestOutline, nearestOutlineAux_eq]
    cases (outlines.takeWhile fun o => posLt cols o.pos q).getLast? <;>
      simp [Option.or]
  · intro cols o1 o2 o3 q hq2 h1 h2
    have h2' : posLt cols o2.pos q = false := posLt_asymm cols q o2.pos hq2 h2
    simp [nearestOutline, nearestOutlineAux, h1, h2']
  · intro cols o1 o2 o3 q hq1 h1
    have h1' : posLt cols o1.pos q = false := posLt_asymm cols q o1.pos hq1 h1
    simp [nearestOutline, nearestOutlineAux, h1']
  · intro cols q
    rfl

/-- Witness for the amended C7 on one page `(0,0,10,10)` with anchors at
`y = 8, 6, 2` and queries at `y = 7` and `y = 9`. -/
theorem nearestOutline_spec_witness :
    nearestOutline 2
      [⟨"a".toList, ⟨⟨0, ⟨0, 0, 10, 10⟩⟩, 1, 8⟩⟩,
       ⟨"b".toList, ⟨⟨0, ⟨0, 0, 10, 10⟩⟩, 1, 6⟩⟩,
       ⟨"c".toList, ⟨⟨0, ⟨0, 0, 10, 10⟩⟩, 1, 2⟩⟩]
      ⟨⟨0, ⟨0, 0, 10, 10⟩⟩, 1, 7⟩ =
      some ⟨"a".toList, ⟨⟨0, ⟨0, 0, 10, 10⟩⟩, 1, 8⟩⟩ ∧
    nearestOutline 2
      [⟨"a".toList, ⟨⟨0, ⟨0, 0, 10, 10⟩⟩, 1, 8⟩⟩,
       ⟨"b".toList, ⟨⟨0, ⟨0, 0, 10, 10⟩⟩, 1, 6⟩⟩,
       ⟨"c".toList, ⟨⟨0, ⟨0, 0, 10, 10⟩⟩, 1, 2⟩⟩]
      ⟨⟨0, ⟨0, 0, 10, 10⟩⟩, 1, 9⟩ = none := by
  constructor
  · exact nearestOutline_spec.2.1 2
      ⟨"a".toList, ⟨⟨0, ⟨0, 0, 10, 10⟩⟩, 1, 8⟩⟩
      ⟨"b".toList, ⟨⟨0, ⟨0, 0, 10, 10⟩⟩, 1, 6⟩⟩
      ⟨"c".toList, ⟨⟨0, ⟨0, 0, 10, 10⟩⟩, 1, 2⟩⟩
      ⟨⟨0, ⟨0, 0, 10, 10⟩⟩, 1, 7⟩ (fun _ => rfl)
      (by norm_num [posLt, normaliseToMediabox])
      (by norm_num [posLt, normaliseToMediabox])
  · exact nearestOutline_spec.2.2.1 2
      ⟨"a".toList, ⟨⟨0, ⟨0, 0, 10, 10⟩⟩, 1, 8⟩⟩
      ⟨"b".toList, ⟨⟨0, ⟨0, 0, 10, 10⟩⟩, 1, 6⟩⟩
      ⟨"c".toList, ⟨⟨0, ⟨0, 0, 10, 10⟩⟩, 1, 2⟩⟩
      ⟨⟨0, ⟨0, 0, 10, 10⟩⟩, 1, 9⟩ (fun _ => rfl)
      (by norm_num [posLt, normaliseToMediabox])

/-- C8: text recovery returns none without boxes; the stripped,
substitution-mapped buffer with boxes and a non-empty buffer; and the
(non-empty) missing-text sentinel with boxes and an empty buffer — in
particular for a StrikeOut with no comment whose buffer stayed empty. -/
theorem gettext_spec (a : Annotation) :
    (hasBoxes a = false → gettext a = none) ∧
    (hasBoxes a = true → a.text ≠ [] →
      gettext a = some ((pyStrip a.text).flatMap SUBSTITUTIONS)) ∧
    (hasBoxes a = true → a.text = [] →
      gettext a = some missingTextSentinel ∧ missingTextSentinel ≠ []) ∧
    gettext ⟨⟨0, ⟨0, 0, 1, 1⟩⟩, "StrikeOut", none, none, none,
      some [⟨0, 0, 1, 1⟩], []⟩ = some missingTextSentinel := by
  refine ⟨?_, ?_, ?_, rfl⟩
  · intro h
    simp [gettext, h]
  · intro h ht
    simp [gettext, h, ht]
  · intro h ht
    exact ⟨by simp [gettext, h, ht], by decide⟩

/-- Witness for C8 at three concrete annotations: a pure comment, a
highlight with buffer " hi", and a boxed StrikeOut with an empty
buffer. -/
theorem gettext_spec_witness :
    gettext ⟨⟨0, ⟨0, 0, 1, 1⟩⟩, "Text", some ['c'], none, none, none, []⟩
      = none ∧
    gettext ⟨⟨0, ⟨0, 0, 1, 1⟩⟩, "Highlight", none, none, none,
        some [⟨0, 0, 1, 1⟩], [' ', 'h', 'i']⟩ =
      some ((pyStrip [' ', 'h', 'i']).flatMap SUBSTITUTIONS) ∧
    (gettext ⟨⟨0, ⟨0, 0, 1, 1⟩⟩, "StrikeOut", none, none, none,
        some [⟨0, 0, 1, 1⟩], []⟩ = some missingTextSentinel ∧
      missingTextSentinel ≠ []) :=
  ⟨(gettext_spec _).1 rfl,
   (gettext_spec _).2.1 rfl (by decide),
   (gettext_spec _).2.2.1 rfl rfl⟩

/-- C9 counterexample: an annotation with no boxes and the non-empty
comment `"\n"` — non-empty contents, so it satisfies the section-3
invariant as literally worded — still fails the `assert text or comment`
check, because the comment splits into no non-blank line. -/
theorem format_annot_blank_comment_counterexample :
    Annotation.contents
      ⟨⟨0, ⟨0, 0, 1, 1⟩⟩, "Text", some ['\n'], none, none, none, []⟩ ≠ none ∧
    Annotation.contents
      ⟨⟨0, ⟨0, 0, 1, 1⟩⟩, "Text", some ['\n'], none, none, none, []⟩ ≠ some [] ∧
    formatAnnotAssertOk
      ⟨⟨0, ⟨0, 0, 1, 1⟩⟩, "Text", some ['\n'], none, none, none, []⟩ = false := by
  refine ⟨by decide, by decide, rfl⟩

/-- C9 amended: the `assert text or comment` check fails exactly when the
recovered text yields no non-blank line and the comment yields no
non-blank line; any annotation with a non-blank line in either passes.
(A non-empty comment made only of line terminators still fails.) -/
theorem format_annot_assert_iff (a : Annotation) :
    (formatAnnotAssertOk a = false ↔
      formatTextLines a = [] ∧ formatCommentLines a = []) ∧
    ((formatTextLines a ≠ [] ∨ formatCommentLines a ≠ []) →
      formatAnnotAssertOk a = true) := by
  constructor
  · simp [formatAnnotAssertOk, List.isEmpty_iff]
  · intro h
    simp [formatAnnotAssertOk, List.isEmpty_iff]
    tauto

/-- Witness for the amended C9 at a boxed highlight whose buffer is
"hi". -/
theorem format_annot_assert_iff_witness :
    (formatAnnotAssertOk ⟨⟨0, ⟨0, 0, 1, 1⟩⟩, "Highlight", none, none, none,
        some [⟨0, 0, 1, 1⟩], ['h', 'i']⟩ = false ↔
      formatTextLines ⟨⟨0, ⟨0, 0, 1, 1⟩⟩, "Highlight", none, none, none,
        some [⟨0, 0, 1, 1⟩], ['h', 'i']⟩ = [] ∧
      formatCommentLines ⟨⟨0, ⟨0, 0, 1, 1⟩⟩, "Highlight", none, none, none,
        some [⟨0, 0, 1, 1⟩], ['h', 'i']⟩ = []) ∧
    ((formatTextLines ⟨⟨0, ⟨0, 0, 1, 1⟩⟩, "Highlight", none, none, none,
        some [⟨0, 0, 1, 1⟩], ['h', 'i']⟩ ≠ [] ∨
      formatCommentLines ⟨⟨0, ⟨0, 0, 1, 1⟩⟩, "Highlight", none, none, none,
        some [⟨0, 0, 1, 1⟩], ['h', 'i']⟩ ≠ []) →
      formatAnnotAssertOk ⟨⟨0, ⟨0, 0, 1, 1⟩⟩, "Highlight", none, none, none,
        some [⟨0, 0, 1, 1⟩], ['h', 'i']⟩ = true) :=
  format_annot_assert_iff _

/-- C10 counterexample: a record with an absent kind tag is not silently
discarded — evaluating `subtype.name` on `None` raises an
AttributeError. -/
theorem getannots_missing_subtype_counterexample :
    getannots ⟨0, ⟨0, 0, 1, 1⟩⟩ [⟨none, none, none, none, none⟩] =
      .error "AttributeError" := rfl

/-- The constructor succeeds exactly when the quad points, if present,
pass the length assert, and then yields the record with empty contents
nulled and the folded box list. -/
theorem mkAnnotation_ok (page : Page) (tagname : String)
    (coords : Option (List ℚ)) (rect : Option Box)
    (contents : Option (List Char)) (author : Option (List Char))
    (h : ∀ cs, coords = some cs → cs.length % 8 = 0) :
    mkAnnotation page tagname coords rect contents author =
      .ok { page := page
            tagname := tagname
            contents := if contents = some [] then none else contents
            rect := rect
            author := author
            boxes := coords.map quadBoxes
            text := [] } := by
  cases coords with
  | none => rfl
  | some cs => simp [ mkAnnotation, h cs rfl]

/-- C10 amended: when every record carries a kind tag and every present
quad-point list has length divisible by 8, ingestion keeps exactly the
records whose tag is among Text, Highlight, Squiggly, StrikeOut,
Underline, silently discards the rest, and preserves input order; a
record with an absent kind tag instead raises an AttributeError, and a
retained record whose quad-point list has length not divisible by 8
raises an AssertionError from the constructor's assert. -/
theorem getannots_spec (page : Page) (records : List PDFRecord)
    (h : ∀ r ∈ records, r.subtype ≠ none)
    (hq : ∀ r ∈ records, ∀ cs, r.quadpoints = some cs →
      cs.length % 8 = 0) :
    getannots page records =
      .ok ((records.filter recordKept).map (recordAnnot page)) ∧
    (∀ (r : PDFRecord) (rest : List PDFRecord), r.subtype = none →
      getannots page (r :: rest) = .error "AttributeError") ∧
    (∀ (r : PDFRecord) (rest : List PDFRecord) (name : String)
        (cs : List ℚ),
      r.subtype = some name → name ∈ ANNOT_SUBTYPES →
      r.quadpoints = some cs → cs.length % 8 ≠ 0 →
      getannots page (r :: rest) = .error "AssertionError") := by
  refine ⟨?_, ?_, ?_⟩
  · induction records with
    | nil => rfl
    | cons pa rest ih =>
        have hpa := h pa (List.mem_cons_self pa rest)
        have hqpa := hq pa (List.mem_cons_self pa rest)
        have hrest : ∀ r ∈ rest, r.subtype ≠ none :=
          fun r hr => h r (List.mem_cons_of_mem pa hr)
        have hqrest : ∀ r ∈ rest, ∀ cs, r.quadpoints = some cs →
            cs.length % 8 = 0 :=
          fun r hr => hq r (List.mem_cons_of_mem pa hr)
        cases hs : pa.subtype with
        | none => exact absurd hs hpa
        | some name =>
            by_cases hk : name ∈ ANNOT_SUBTYPES
            · simp only [getannots, hs, hk, not_true_eq_false, if_false,
                mkAnnotation_ok page name pa.quadpoints pa.rect
                  (pa.contents.map normContents) pa.author hqpa,
                ih hrest hqrest, bind, Except.bind]
              simp [List.filter_cons, recordKept, hs, hk, recordAnnot]
            · simp only [getannots, hs, hk, not_false_eq_true, if_true,
                ih hrest hqrest]
              simp [List.filter_cons, recordKept, hs, hk]
  · intro r rest h0
    simp [getannots, h0]
  · intro r rest name cs hsub hk hqp hlen
    simp [getannots, hsub, hk, mkAnnotation, hqp, hlen, bind, Except.bind]

/-- Witness for the amended C10: one retained Highlight record followed
by a discarded Popup record; the error case on a tagless record; and the
assert firing on a retained record with a length-7 quad-point list. -/
theorem getannots_spec_witness :
    (getannots ⟨0, ⟨0, 0, 1, 1⟩⟩
        [⟨some "Highlight", none, some [0, 0, 1, 0, 0, 1, 1, 1], none, none⟩,
         ⟨some "Popup", none, none, none, none⟩] =
      .ok ((([⟨some "Highlight", none, some [0, 0, 1, 0, 0, 1, 1, 1], none, none⟩,
              ⟨some "Popup", none, none, none, none⟩] :
            List PDFRecord).filter recordKept).map
          (recordAnnot ⟨0, ⟨0, 0, 1, 1⟩⟩))) ∧
    getannots ⟨0, ⟨0, 0, 1, 1⟩⟩
        [⟨none, none, none, none, none⟩, ⟨some "Text", none, none, none, none⟩] =
      .error "AttributeError" ∧
    getannots ⟨0, ⟨0, 0, 1, 1⟩⟩
        [⟨some "Highlight", none, some [0, 0, 1, 0, 0, 1, 1], none, none⟩] =
      .error "AssertionError" :=
  ⟨(getannots_spec ⟨0, ⟨0, 0, 1, 1⟩⟩
      [⟨some "Highlight", none, some [0, 0, 1, 0, 0, 1, 1, 1], none, none⟩,
       ⟨some "Popup", none, none, none, none⟩] (by decide) (by decide)).1,
   (getannots_spec ⟨0, ⟨0, 0, 1, 1⟩⟩ [] (by simp) (by simp)).2.1
      ⟨none, none, none, none, none⟩
      [⟨some "Text", none, none, none, none⟩] rfl,
   (getannots_spec ⟨0, ⟨0, 0, 1, 1⟩⟩ [] (by simp) (by simp)).2.2
      ⟨some "Highlight", none, some [0, 0, 1, 0, 0, 1, 1], none, none⟩
      [] "Highlight" [0, 0, 1, 0, 0, 1, 1] rfl (by decide) rfl (by decide)⟩

end PdfAnnots
